import Mathlib

/-!
Verification of `roles/delete-old-launch-configurations/library/lc_find.py`.

The module shells out to `aws autoscaling describe-launch-configurations`,
parses the JSON, projects each entry to a `{name, arn}` pair, optionally
filters by a name regex (`re.match`, i.e. anchored at the start), optionally
sorts by name, optionally slices, and emits the result via `exit_json`.

The embedding below models the Python values and operations the script uses:
a JSON value type (the result of `json.loads`), Python exceptions that can
be raised by the operations the script performs, Python `int()`, Python list
slicing, a regular-expression engine with the three Python entry points
(`match`, `fullmatch`, `search`) built on Brzozowski derivatives, and the
pipeline itself with the script's exact control flow, including the
`try/except TypeError` that wraps only the slicing block.
-/

/-- A JSON value as produced by Python's `json.loads`. -/
inductive Json where
  | null
  | bool (b : Bool)
  | num (n : Int)
  | str (s : String)
  | arr (elems : List Json)
  | obj (fields : List (String × Json))

/-- The Python exceptions that the operations used by `lc_find.py` can raise.
`calledProcessError` is raised by `subprocess.check_output` when the external
`aws` call fails; `valueError` by `int()` on a non-numeric string and by
`json.loads` on malformed input; `keyError` by dictionary subscripting when
the key is absent; `typeError` by subscripting a non-dictionary. -/
inductive PyError where
  | valueError (msg : String)
  | typeError (msg : String)
  | keyError (key : String)
  | calledProcessError (msg : String)
deriving DecidableEq

/-- One emitted record: the projection of a fetched launch configuration to
its name and ARN, as built by the loop in `main`
(`data = {'arn': lc["LaunchConfigurationARN"], 'name': lc["LaunchConfigurationName"]}`). -/
structure LcRecord where
  name : String
  arn : String
deriving DecidableEq

/-- The module parameters read from `module.params` in `main`.  `sort` has
Ansible type `bool` with default `None`; since the script only ever tests its
truthiness (`if sort:`), an absent value behaves exactly like `False` and is
modelled as `false`.  `sort_order` is constrained by the argument spec to
`ascending` or `descending` with default `ascending`. -/
structure LcParams where
  name_regex : Option String
  sort : Bool
  sort_order : String
  sort_start : Option String
  sort_end : Option String
deriving DecidableEq

/-- The observable outcome of running `main`: a successful `module.exit_json`
with a results list, a `module.fail_json` with a message, or an exception
that no handler in the script catches (which crashes the module). -/
inductive ModuleOutcome where
  | exitJson (results : List LcRecord)
  | failJson (msg : String)
  | uncaught (e : PyError)
deriving DecidableEq

/-- Python truthiness of an optional string parameter: `None` and the empty
string are falsy, every other string is truthy. -/
def strTruthy : Option String → Bool
  | none => false
  | some s => !s.isEmpty

/-- Python subscripting `v[key]` with a string key: on a dict it returns the
value or raises `KeyError`; on any other value it raises `TypeError`. -/
def Json.subscript : Json → String → Except PyError Json
  | .obj fields, k =>
    match fields.lookup k with
    | some v => .ok v
    | none => .error (.keyError k)
  | _, _ => .error (.typeError "value is not subscriptable by string")

/-- Python iteration `for x in v`: a list yields its elements, a string its
characters (as one-character strings), a dict its keys; other values raise
`TypeError`. -/
def Json.pyIterate : Json → Except PyError (List Json)
  | .arr xs => .ok xs
  | .str s => .ok (s.data.map fun c => .str (String.mk [c]))
  | .obj fields => .ok (fields.map fun kv => .str kv.1)
  | _ => .error (.typeError "value is not iterable")

/-- Whitespace as stripped by Python's `int()` around its argument. -/
def isPySpace (c : Char) : Bool :=
  c = ' ' || c = '\t' || c = '\n' || c = '\r' || c = '\x0b' || c = '\x0c'

/-- Strip whitespace from both ends of a character list. -/
def trimChars (cs : List Char) : List Char :=
  ((cs.dropWhile isPySpace).reverse.dropWhile isPySpace).reverse

/-- Accumulate a base-10 digit string; `none` on any non-digit. -/
def parseDigitsAux (acc : Nat) : List Char → Option Nat
  | [] => some acc
  | c :: cs =>
    if 48 ≤ c.toNat && c.toNat ≤ 57 then
      parseDigitsAux (acc * 10 + (c.toNat - 48)) cs
    else none

/-- A non-empty base-10 digit string as a number. -/
def parseDigits : List Char → Option Nat
  | [] => none
  | cs => parseDigitsAux 0 cs

/-- The numeric core of Python `int()`: an optional sign followed by at
least one base-10 digit. -/
def pyIntCore : List Char → Option Int
  | '+' :: cs => (parseDigits cs).map Int.ofNat
  | '-' :: cs => (parseDigits cs).map fun n => -(n : Int)
  | cs => (parseDigits cs).map Int.ofNat

/-- Python `int()` on a string: surrounding whitespace is allowed, then an
optional sign followed by base-10 digits; anything else raises `ValueError`
(not `TypeError`). -/
def pyInt (s : String) : Except PyError Int :=
  match pyIntCore (trimChars s.data) with
  | some n => .ok n
  | none => .error (.valueError "invalid literal for int() with base 10")

/-- Normalisation of one slice bound, as Python does for `list[a:b]` with the
default step: a negative index counts from the end (`len + i`, clamped below
at `0`), a non-negative index is clamped above at `len`. -/
def pySliceIndex (len : Nat) (i : Int) : Nat :=
  if i < 0 then (max ((len : Int) + i) 0).toNat
  else min i.toNat len

/-- Python list slicing `xs[a:b]` with the default step. -/
def pySlice (xs : List α) (a b : Int) : List α :=
  (xs.take (pySliceIndex xs.length b)).drop (pySliceIndex xs.length a)

/-! ### Regular expressions

A model of the `re` module as used by the script: `reMatch` is `re.match`
(anchored at the start of the string only), `reFullmatch` is `re.fullmatch`
(the whole string must match), `reSearch` is `re.search` (a match may start
anywhere).  Matching is by Brzozowski derivatives.  `anyChar` is `.`, which
in Python matches every character except a newline. -/

inductive Regex where
  | emp
  | eps
  | chr (c : Char)
  | anyChar
  | cat (a b : Regex)
  | alt (a b : Regex)
  | star (a : Regex)
deriving DecidableEq

/-- Does the regex accept the empty string? -/
def Regex.nullable : Regex → Bool
  | .emp => false
  | .eps => true
  | .chr _ => false
  | .anyChar => false
  | .cat a b => a.nullable && b.nullable
  | .alt a b => a.nullable || b.nullable
  | .star _ => true

/-- Brzozowski derivative of a regex with respect to one character. -/
def Regex.deriv : Regex → Char → Regex
  | .emp, _ => .emp
  | .eps, _ => .emp
  | .chr c, d => if c = d then .eps else .emp
  | .anyChar, d => if d = '\n' then .emp else .eps
  | .cat a b, d =>
    if a.nullable then .alt (.cat (a.deriv d) b) (b.deriv d)
    else .cat (a.deriv d) b
  | .alt a b, d => .alt (a.deriv d) (b.deriv d)
  | .star a, d => .cat (a.deriv d) (.star a)

/-- Does some prefix of the character list match the regex? -/
def Regex.matchFrom : Regex → List Char → Bool
  | r, [] => r.nullable
  | r, c :: cs => r.nullable || (r.deriv c).matchFrom cs

/-- `re.match(s)` as a Boolean: the regex matches at the start of `s`
(a match of any length, anchored at position 0 only). -/
def reMatch (r : Regex) (s : String) : Bool :=
  r.matchFrom s.data

/-- `re.fullmatch(s)` as a Boolean: the regex matches all of `s`. -/
def reFullmatch (r : Regex) (s : String) : Bool :=
  (s.data.foldl Regex.deriv r).nullable

/-- Helper for `reSearch`: does the regex match starting at some position? -/
def Regex.searchFrom : Regex → List Char → Bool
  | r, [] => r.nullable
  | r, c :: cs => r.matchFrom (c :: cs) || r.searchFrom cs

/-- `re.search(s)` as a Boolean: the regex matches somewhere inside `s`. -/
def reSearch (r : Regex) (s : String) : Bool :=
  r.searchFrom s.data

/-! ### Compiling a pattern string

`re.compile` for the core Python pattern syntax: literal characters,
`.`, alternation `|`, grouping `(...)`, the postfix operators `*`, `+`, `?`,
and backslash escapes of punctuation.  Constructs outside this core
(character classes, bounded repeats, anchors, escape classes such as `\d`)
are rejected, as is malformed syntax; `re.compile` raises an error on the
latter and the script does not catch it. -/

/-- Characters with special meaning that cannot stand for themselves. -/
def regexSpecial (c : Char) : Bool :=
  c = '(' || c = ')' || c = '|' || c = '*' || c = '+' || c = '?' ||
  c = '.' || c = '\\' || c = '[' || c = ']' || c = '{' || c = '}' ||
  c = '^' || c = '$'

/-- Apply trailing `*`, `+`, `?` operators to a parsed atom. -/
def parsePostOps (a : Regex) : List Char → Regex × List Char
  | '*' :: rest => parsePostOps (.star a) rest
  | '+' :: rest => parsePostOps (.cat a (.star a)) rest
  | '?' :: rest => parsePostOps (.alt a .eps) rest
  | cs => (a, cs)

mutual

/-- Parse an alternation (`cat ('|' cat)*`).  Fuel-indexed recursive descent;
`none` means a syntax error or exhausted fuel. -/
def parseAlt : Nat → List Char → Option (Regex × List Char)
  | 0, _ => none
  | n + 1, cs => do
    let (r, cs₁) ← parseCat n cs
    parseAltRest n r cs₁

/-- Parse the remaining `'|' cat` branches of an alternation. -/
def parseAltRest : Nat → Regex → List Char → Option (Regex × List Char)
  | 0, _, _ => none
  | n + 1, r, cs =>
    match cs with
    | '|' :: rest => do
      let (r₂, cs₁) ← parseCat n rest
      parseAltRest n (.alt r r₂) cs₁
    | _ => some (r, cs)

/-- Parse a concatenation of postfixed atoms, stopping at `|`, `)` or the
end of the pattern.  An empty concatenation is `eps`. -/
def parseCat : Nat → List Char → Option (Regex × List Char)
  | 0, _ => none
  | n + 1, cs =>
    match cs with
    | [] => some (.eps, [])
    | ')' :: _ => some (.eps, cs)
    | '|' :: _ => some (.eps, cs)
    | _ => do
      let (a, cs₁) ← parseAtomPost n cs
      let (b, cs₂) ← parseCat n cs₁
      some (.cat a b, cs₂)

/-- Parse one atom followed by its postfix operators. -/
def parseAtomPost : Nat → List Char → Option (Regex × List Char)
  | 0, _ => none
  | n + 1, cs => do
    let (a, cs₁) ← parseAtom n cs
    some (parsePostOps a cs₁)

/-- Parse a single atom: a group, `.`, an escaped punctuation character, or
a literal character. -/
def parseAtom : Nat → List Char → Option (Regex × List Char)
  | 0, _ => none
  | n + 1, cs =>
    match cs with
    | '(' :: rest => do
      let (r, cs₁) ← parseAlt n rest
      match cs₁ with
      | ')' :: cs₂ => some (r, cs₂)
      | _ => none
    | '.' :: rest => some (.anyChar, rest)
    | '\\' :: c :: rest => if c.isAlphanum then none else some (.chr c, rest)
    | c :: rest => if regexSpecial c then none else some (.chr c, rest)
    | [] => none

end

/-- `re.compile(pattern)`: parse the whole pattern or raise an error. -/
def reCompile (pattern : String) : Except PyError Regex :=
  match parseAlt (pattern.length * 2 + 4) pattern.data with
  | some (r, []) => .ok r
  | _ => .error (.valueError "invalid regular expression")

/-! ### The pipeline of `main` -/

/-- Lexicographic comparison of character lists by code point, the order
Python uses when comparing the (ASCII) name strings. -/
def charListLe : List Char → List Char → Bool
  | [], _ => true
  | _ :: _, [] => false
  | a :: as, b :: bs =>
    if a.toNat < b.toNat then true
    else if b.toNat < a.toNat then false
    else charListLe as bs

/-- Lexicographic string comparison by code point. -/
def pyStrLe (a b : String) : Prop := charListLe a.data b.data = true

instance : DecidableRel pyStrLe :=
  fun a b => inferInstanceAs (Decidable (charListLe a.data b.data = true))

/-- The ascending comparison used by `results.sort(key=lambda e: e['name'])`:
records compare by their `name` under lexicographic string order. -/
def nameAsc (a b : LcRecord) : Prop := pyStrLe a.name b.name

/-- The comparison realised by `reverse=True`: Python's stable descending
sort orders `a` before `b` exactly when `b`'s key is `≤` `a`'s key, keeping
the original order of records with equal names. -/
def nameDesc (a b : LcRecord) : Prop := pyStrLe b.name a.name

instance : DecidableRel nameAsc :=
  fun a b => inferInstanceAs (Decidable (pyStrLe a.name b.name))

instance : DecidableRel nameDesc :=
  fun a b => inferInstanceAs (Decidable (pyStrLe b.name a.name))

instance [DecidableEq ε] [DecidableEq α] : DecidableEq (Except ε α) := fun x y =>
  match x, y with
  | .ok a, .ok b =>
    if h : a = b then .isTrue (by rw [h]) else .isFalse (by simp [h])
  | .error a, .error b =>
    if h : a = b then .isTrue (by rw [h]) else .isFalse (by simp [h])
  | .ok _, .error _ => .isFalse (by simp)
  | .error _, .ok _ => .isFalse (by simp)

/-- The body of the fetch loop for one entry:
`data = {'arn': lc["LaunchConfigurationARN"], 'name': lc["LaunchConfigurationName"]}`.
The ARN subscript is evaluated first, as in the source's dict literal, so a
record lacking both keys raises `KeyError` for the ARN key.  The downstream
steps (`regex.match` on the name, the sort key) treat both fields as strings,
which the AWS response guarantees; a non-string field is modelled as a
`TypeError` at extraction, where Python would defer the failure to the first
string operation on it. -/
def extractRecord (lc : Json) : Except PyError LcRecord :=
  match lc.subscript "LaunchConfigurationARN" with
  | .error e => .error e
  | .ok arnJson =>
    match lc.subscript "LaunchConfigurationName" with
    | .error e => .error e
    | .ok nameJson =>
      match arnJson, nameJson with
      | .str arn, .str name => .ok ⟨name, arn⟩
      | _, _ => .error (.typeError "launch configuration fields must be strings")

/-- The fetch loop `for lc in lc_result['LaunchConfigurations']: ...
results.append(data)`: entries are projected in order and the first failing
entry raises out of the loop (nothing is emitted in that case, since
`results` is local to `main`). -/
def extractAll : List Json → Except PyError (List LcRecord)
  | [] => .ok []
  | lc :: rest =>
    match extractRecord lc with
    | .error e => .error e
    | .ok record =>
      match extractAll rest with
      | .error e => .error e
      | .ok records => .ok (record :: records)

/-- The filter step:
`if name_regex: regex = re.compile(name_regex); results = [r for r in results if regex.match(r['name'])]`.
The whole block is gated on the truthiness of the `name_regex` string, so
`None` and the empty string both skip it; `regex.match` anchors at the start
of the name only. -/
def filterStep (name_regex : Option String) (results : List LcRecord) :
    Except PyError (List LcRecord) :=
  if strTruthy name_regex then
    match reCompile (name_regex.getD "") with
    | .error e => .error e
    | .ok regex => .ok (results.filter fun result => reMatch regex result.name)
  else .ok results

/-- The sort step:
`if sort: results.sort(key=lambda e: e['name'], reverse=(sort_order=='descending'))`.
Python's `list.sort` is stable; a stable sort under a total preorder is
uniquely determined by its comparator, so it is modelled by insertion sort
with the corresponding relation. -/
def sortStep (sort : Bool) (sort_order : String) (results : List LcRecord) :
    List LcRecord :=
  if sort then
    if sort_order = "descending" then List.insertionSort nameDesc results
    else List.insertionSort nameAsc results
  else results

/-- The body of the `try:` block around slicing.  The three branches mirror
the source: both bounds, only `sort_start`, only `sort_end`; each is gated on
`sort` and on the truthiness of the bound strings, and converts the bounds
with `int()` in source order before slicing. -/
def sliceBody (sort : Bool) (sort_start sort_end : Option String)
    (results : List LcRecord) : Except PyError (List LcRecord) :=
  if sort && strTruthy sort_start && strTruthy sort_end then
    match pyInt (sort_start.getD "") with
    | .error e => .error e
    | .ok a =>
      match pyInt (sort_end.getD "") with
      | .error e => .error e
      | .ok b => .ok (pySlice results a b)
  else if sort && strTruthy sort_start then
    match pyInt (sort_start.getD "") with
    | .error e => .error e
    | .ok a => .ok (pySlice results a results.length)
  else if sort && strTruthy sort_end then
    match pyInt (sort_end.getD "") with
    | .error e => .error e
    | .ok b => .ok (pySlice results 0 b)
  else .ok results

/-- Everything `main` does before the `try:` block, starting from the value
`json.loads` produced (or the exception the fetch raised).  The script has no
handler around any of this, so every error here escapes `main`. -/
def preSlice (p : LcParams) (fetched : Except PyError Json) :
    Except PyError (List LcRecord) :=
  match fetched with
  | .error e => .error e
  | .ok lcResult =>
    match lcResult.subscript "LaunchConfigurations" with
    | .error e => .error e
    | .ok lcsJson =>
      match lcsJson.pyIterate with
      | .error e => .error e
      | .ok lcs =>
        match extractAll lcs with
        | .error e => .error e
        | .ok results =>
          match filterStep p.name_regex results with
          | .error e => .error e
          | .ok results => .ok (sortStep p.sort p.sort_order results)

/-- The whole of `main` as a function of the parameters and the external
fetch.  `fetched` is the outcome of
`json.loads(subprocess.check_output(["aws", ...]))`: a `Json` value, or
`calledProcessError` when the `aws` call failed, or `valueError` when its
output was not valid JSON.  Only the slicing block sits inside
`try: ... except TypeError:`, whose handler calls `module.fail_json`; every
other exception — including the `ValueError` that `int()` raises on a
non-numeric bound — escapes uncaught. -/
def lcFindMain (p : LcParams) (fetched : Except PyError Json) : ModuleOutcome :=
  match preSlice p fetched with
  | .error e => .uncaught e
  | .ok results =>
    match sliceBody p.sort p.sort_start p.sort_end results with
    | .ok final => .exitJson final
    | .error (.typeError _) =>
      .failJson "Please supply numeric values for sort_start and/or sort_end"
    | .error e => .uncaught e

/-- A well-formed launch-configuration entry with the given name and ARN, as
the AWS CLI returns it (extra fields beyond the two projected ones may be
appended to the field list). -/
def mkLcEntry (name arn : String) : Json :=
  Json.obj [("LaunchConfigurationARN", .str arn), ("LaunchConfigurationName", .str name)]

/-- A well-formed fetch response carrying the given `(name, arn)` entries. -/
def mkResponse (entries : List (String × String)) : Json :=
  Json.obj [("LaunchConfigurations", .arr (entries.map fun e => mkLcEntry e.1 e.2))]

/-- The record an entry of `mkResponse` projects to. -/
def mkRecord (e : String × String) : LcRecord := ⟨e.1, e.2⟩

/-- Modelled from the spec: the slice as the specification words it — a
half-open range over positions of the sequence, with out-of-range bounds
clamped to the sequence rather than erroring.  Stated for comparison with
the Python slicing the code performs. -/
def specClampSlice (xs : List α) (a b : Int) : List α :=
  (xs.take (min (max b 0).toNat xs.length)).drop (min (max a 0).toNat xs.length)

/-- Does an outcome report success through `module.exit_json`? -/
def isExitJson : ModuleOutcome → Bool
  | .exitJson _ => true
  | _ => false

/-- Does an outcome report failure through `module.fail_json`? -/
def isFailJson : ModuleOutcome → Bool
  | .failJson _ => true
  | _ => false

/-! ### Auxiliary lemmas -/

theorem charListLe_total : ∀ x y : List Char, charListLe x y || charListLe y x
  | [], _ => by simp [charListLe]
  | _ :: _, [] => by simp [charListLe]
  | a :: as, b :: bs => by
    by_cases hab : a.toNat < b.toNat
    · simp [charListLe, hab]
    · by_cases hba : b.toNat < a.toNat
      · simp [charListLe, hab, hba, Nat.lt_asymm hba]
      · simpa [charListLe, hab, hba] using charListLe_total as bs

theorem charListLe_trans :
    ∀ x y z : List Char, charListLe x y → charListLe y z → charListLe x z
  | [], _, _, _, _ => by simp [charListLe]
  | _ :: _, [], _, hxy, _ => by simp [charListLe] at hxy
  | _ :: _, _ :: _, [], _, hyz => by simp [charListLe] at hyz
  | a :: as, b :: bs, c :: cs, hxy, hyz => by
    simp only [charListLe] at hxy hyz ⊢
    by_cases hab : a.toNat < b.toNat <;> by_cases hbc : b.toNat < c.toNat
    · simp [Nat.lt_trans hab hbc]
    · simp only [hbc, if_false] at hyz
      by_cases hcb : c.toNat < b.toNat
      · simp [hcb, if_true] at hyz
      · have hbc' : b.toNat = c.toNat :=
          Nat.le_antisymm (Nat.le_of_not_lt hcb) (Nat.le_of_not_lt hbc)
        simp [hbc' ▸ hab]
    · simp only [hab, if_false] at hxy
      by_cases hba : b.toNat < a.toNat
      · simp [hba, if_true] at hxy
      · have hab' : a.toNat = b.toNat :=
          Nat.le_antisymm (Nat.le_of_not_lt hba) (Nat.le_of_not_lt hab)
        simp [hab' ▸ hbc]
    · simp only [hab, if_false] at hxy
      simp only [hbc, if_false] at hyz
      by_cases hba : b.toNat < a.toNat
      · simp [hba, if_true] at hxy
      · by_cases hcb : c.toNat < b.toNat
        · simp [hcb, if_true] at hyz
        · have hab' : a.toNat = b.toNat :=
            Nat.le_antisymm (Nat.le_of_not_lt hba) (Nat.le_of_not_lt hab)
          have hac : ¬ a.toNat < c.toNat := by rw [hab']; exact hbc
          have hca : ¬ c.toNat < a.toNat := by rw [hab']; exact hcb
          simp only [hba, if_false] at hxy
          simp only [hcb, if_false] at hyz
          simp only [hac, hca, if_false]
          exact charListLe_trans as bs cs hxy hyz

instance : IsTotal LcRecord nameAsc :=
  ⟨fun a b => by simpa [nameAsc, pyStrLe] using charListLe_total a.name.data b.name.data⟩

instance : IsTotal LcRecord nameDesc :=
  ⟨fun a b => by simpa [nameDesc, pyStrLe] using charListLe_total b.name.data a.name.data⟩

instance : IsTrans LcRecord nameAsc :=
  ⟨fun _ _ _ h h' => charListLe_trans _ _ _ h h'⟩

instance : IsTrans LcRecord nameDesc :=
  ⟨fun _ _ _ h h' => charListLe_trans _ _ _ h' h⟩

theorem filterStep_none (results : List LcRecord) :
    filterStep none results = .ok results := rfl

theorem filterStep_empty_string (results : List LcRecord) :
    filterStep (some "") results = filterStep none results := rfl

theorem filterStep_sublist (nr : Option String) (recs mid : List LcRecord)
    (h : filterStep nr recs = .ok mid) : mid.Sublist recs := by
  unfold filterStep at h
  by_cases ht : strTruthy nr = true
  · rw [if_pos ht] at h
    cases hc : reCompile (nr.getD "") with
    | error e => rw [hc] at h; simp at h
    | ok regex =>
      rw [hc] at h
      injection h with h'
      rw [← h']
      exact List.filter_sublist recs
  · rw [if_neg ht] at h
    injection h with h'
    rw [← h']

theorem sortStep_perm (s : Bool) (o : String) (l : List LcRecord) :
    (sortStep s o l).Perm l := by
  unfold sortStep
  by_cases hs : s = true
  · rw [if_pos hs]
    by_cases ho : o = "descending"
    · rw [if_pos ho]; exact List.perm_insertionSort nameDesc l
    · rw [if_neg ho]; exact List.perm_insertionSort nameAsc l
  · rw [if_neg hs]

theorem sortStep_false (o : String) (l : List LcRecord) :
    sortStep false o l = l := rfl

theorem sortStep_sorted_asc (o : String) (ho : ¬ o = "descending") (l : List LcRecord) :
    (sortStep true o l).Pairwise nameAsc := by
  unfold sortStep
  rw [if_pos rfl, if_neg ho]
  exact List.sorted_insertionSort nameAsc l

theorem sortStep_sorted_desc (l : List LcRecord) :
    (sortStep true "descending" l).Pairwise nameDesc := by
  unfold sortStep
  rw [if_pos rfl, if_pos rfl]
  exact List.sorted_insertionSort nameDesc l

theorem pySlice_sublist (xs : List LcRecord) (a b : Int) :
    (pySlice xs a b).Sublist xs :=
  ((xs.take (pySliceIndex xs.length b)).drop_sublist (pySliceIndex xs.length a)).trans
    (xs.take_sublist (pySliceIndex xs.length b))

theorem pySlice_full (xs : List LcRecord) :
    pySlice xs 0 xs.length = xs := by
  have h : ¬ ((xs.length : Int) < 0) := not_lt.mpr (Int.natCast_nonneg _)
  simp [pySlice, pySliceIndex, h]

theorem sliceBody_ok_shape (s : Bool) (ss se : Option String) (l final : List LcRecord)
    (h : sliceBody s ss se l = .ok final) :
    ∃ a b : Int, final = pySlice l a b := by
  unfold sliceBody at h
  by_cases h₁ : (s && strTruthy ss && strTruthy se) = true
  · rw [if_pos h₁] at h
    cases ha : pyInt (ss.getD "") with
    | error e => rw [ha] at h; simp at h
    | ok a =>
      rw [ha] at h
      cases hb : pyInt (se.getD "") with
      | error e => rw [hb] at h; simp at h
      | ok b =>
        rw [hb] at h
        injection h with h'
        exact ⟨a, b, h'.symm⟩
  · rw [if_neg h₁] at h
    by_cases h₂ : (s && strTruthy ss) = true
    · rw [if_pos h₂] at h
      cases ha : pyInt (ss.getD "") with
      | error e => rw [ha] at h; simp at h
      | ok a =>
        rw [ha] at h
        injection h with h'
        exact ⟨a, l.length, h'.symm⟩
    · rw [if_neg h₂] at h
      by_cases h₃ : (s && strTruthy se) = true
      · rw [if_pos h₃] at h
        cases hb : pyInt (se.getD "") with
        | error e => rw [hb] at h; simp at h
        | ok b =>
          rw [hb] at h
          injection h with h'
          exact ⟨0, b, h'.symm⟩
      · rw [if_neg h₃] at h
        injection h with h'
        exact ⟨0, l.length, by rw [← h', pySlice_full]⟩

theorem sliceBody_no_sort (ss se : Option String) (l : List LcRecord) :
    sliceBody false ss se l = .ok l := rfl

theorem extractAll_length : ∀ (lcs : List Json) (recs : List LcRecord),
    extractAll lcs = .ok recs → recs.length = lcs.length := by
  intro lcs
  induction lcs with
  | nil => intro recs h; injection h with h'; rw [← h']; rfl
  | cons lc rest ih =>
    intro recs h
    unfold extractAll at h
    cases hr : extractRecord lc with
    | error e => rw [hr] at h; simp at h
    | ok record =>
      rw [hr] at h
      cases hres : extractAll rest with
      | error e => rw [hres] at h; simp at h
      | ok records =>
        rw [hres] at h
        injection h with h'
        rw [← h']
        simp [ih records hres]

theorem extractAll_mkEntries : ∀ entries : List (String × String),
    extractAll (entries.map fun e => mkLcEntry e.1 e.2) = .ok (entries.map mkRecord) := by
  intro entries
  induction entries with
  | nil => rfl
  | cons e rest ih =>
    show extractAll (mkLcEntry e.1 e.2 :: rest.map fun e => mkLcEntry e.1 e.2) = _
    unfold extractAll
    rw [ih]
    rfl

theorem preSlice_response (p : LcParams) (lcs : List Json) :
    preSlice p (.ok (Json.obj [("LaunchConfigurations", Json.arr lcs)])) =
      (match extractAll lcs with
      | .error e => .error e
      | .ok recs =>
        match filterStep p.name_regex recs with
        | .error e => .error e
        | .ok mid => .ok (sortStep p.sort p.sort_order mid)) := rfl

theorem preSlice_error (p : LcParams) (e : PyError) :
    preSlice p (.error e) = .error e := rfl

theorem preSlice_ok_sortStep (p : LcParams) (fetched : Except PyError Json)
    (pre : List LcRecord) (h : preSlice p fetched = .ok pre) :
    ∃ mid, pre = sortStep p.sort p.sort_order mid := by
  cases fetched with
  | error e => rw [preSlice_error] at h; simp at h
  | ok lcResult =>
    unfold preSlice at h
    dsimp only at h
    cases hs : lcResult.subscript "LaunchConfigurations" with
    | error e => rw [hs] at h; simp at h
    | ok lcsJson =>
      rw [hs] at h
      dsimp only at h
      cases hi : lcsJson.pyIterate with
      | error e => rw [hi] at h; simp at h
      | ok lcs =>
        rw [hi] at h
        dsimp only at h
        cases he : extractAll lcs with
        | error e => rw [he] at h; simp at h
        | ok recs =>
          rw [he] at h
          dsimp only at h
          cases hf : filterStep p.name_regex recs with
          | error e => rw [hf] at h; simp at h
          | ok mid =>
            rw [hf] at h
            dsimp only at h
            injection h with h'
            exact ⟨mid, h'.symm⟩

theorem lcFindMain_exitJson (p : LcParams) (fetched : Except PyError Json)
    (results : List LcRecord) (h : lcFindMain p fetched = .exitJson results) :
    ∃ pre, preSlice p fetched = .ok pre ∧
      sliceBody p.sort p.sort_start p.sort_end pre = .ok results := by
  unfold lcFindMain at h
  cases hp : preSlice p fetched with
  | error e => rw [hp] at h; simp at h
  | ok pre =>
    rw [hp] at h
    dsimp only at h
    cases hs : sliceBody p.sort p.sort_start p.sort_end pre with
    | ok final =>
      rw [hs] at h
      injection h with h'
      exact ⟨pre, rfl, by rw [hs, h']⟩
    | error e =>
      rw [hs] at h
      cases e <;> simp at h

/-! ### Claims -/

/-- C1: the claim says a non-parseable `sort_start`/`sort_end` (with `sort`
true) fails with the validation message "supply numeric values for sort_start
and/or sort_end".  In the code, `int("x")` raises `ValueError`, but the
handler around the slicing block catches only `TypeError`, so the module
crashes with the uncaught `ValueError` and the `fail_json` message — which
shows the handler's intent — is never produced.  No results list is emitted
either way. -/
theorem nonnumeric_bound_crashes_uncaught :
    lcFindMain ⟨none, true, "ascending", some "x", none⟩
        (.ok (mkResponse [("lc-a", "arn:a")])) =
      .uncaught (.valueError "invalid literal for int() with base 10") ∧
    isFailJson (lcFindMain ⟨none, true, "ascending", some "x", none⟩
        (.ok (mkResponse [("lc-a", "arn:a")]))) = false ∧
    isExitJson (lcFindMain ⟨none, true, "ascending", some "x", none⟩
        (.ok (mkResponse [("lc-a", "arn:a")]))) = false :=
  ⟨by decide, by decide, by decide⟩

/-- C2 (counterexample): a malformed fetch response — `json.loads` raising
`ValueError` while the external call itself succeeded — is not treated as
zero records: the pipeline crashes with the uncaught parse error instead of
exiting successfully with an empty results list. -/
theorem malformed_response_not_empty_result :
    lcFindMain ⟨none, false, "ascending", none, none⟩
        (.error (.valueError "No JSON object could be decoded")) =
      .uncaught (.valueError "No JSON object could be decoded") ∧
    isExitJson (lcFindMain ⟨none, false, "ascending", none, none⟩
        (.error (.valueError "No JSON object could be decoded"))) = false :=
  ⟨rfl, rfl⟩

/-- C2 (amended): a failing external call propagates its error, and an empty
record list is a valid non-error outcome (empty `results`); but a malformed
response — unparseable output, or JSON lacking the `LaunchConfigurations`
key — raises an uncaught error rather than being treated as zero records. -/
theorem response_error_propagation (p : LcParams) (m : String) :
    lcFindMain p (.error (.calledProcessError m)) = .uncaught (.calledProcessError m) ∧
    lcFindMain p (.error (.valueError m)) = .uncaught (.valueError m) ∧
    lcFindMain ⟨none, false, "ascending", none, none⟩
      (.ok (mkResponse [])) = .exitJson [] ∧
    lcFindMain ⟨none, false, "ascending", none, none⟩
      (.ok (Json.obj [])) = .uncaught (.keyError "LaunchConfigurations") :=
  ⟨rfl, rfl, by decide, by decide⟩

/-- C6: when `sort` is false (or absent, which the argument spec makes
behave identically), `sort_start` and `sort_end` have no effect: two runs on
the same fetch response differing only in those two parameters produce
identical outcomes — no slicing and no reordering occurs. -/
theorem slice_params_ignored_without_sort (nr : Option String) (so : String)
    (ss se ss' se' : Option String) (fetched : Except PyError Json) :
    lcFindMain ⟨nr, false, so, ss, se⟩ fetched =
      lcFindMain ⟨nr, false, so, ss', se'⟩ fetched := rfl

/-- C9: a `name_regex` supplied as the empty string behaves exactly like an
absent `name_regex`: the filter block is gated on the truthiness of the
parameter value (`if name_regex:`), the empty string is falsy, so the filter
is skipped entirely and no record is dropped. -/
theorem empty_regex_skips_filter (s : Bool) (so : String) (ss se : Option String)
    (fetched : Except PyError Json) (results : List LcRecord) :
    lcFindMain ⟨some "", s, so, ss, se⟩ fetched =
      lcFindMain ⟨none, s, so, ss, se⟩ fetched ∧
    filterStep (some "") results = .ok results :=
  ⟨rfl, rfl⟩

/-- C3: with a provided (truthy) `name_regex` that compiles, the filter step
retains exactly the records whose name the regex matches at the start of the
string; with no `name_regex`, no record is dropped.  The final conjuncts pin
the match semantics down on concrete inputs: the pattern `a` matches `"ab"`
at the start even though it does not match the full string, it does not
match `"ba"` even though a substring search finds it there, and it does not
match `"Ab"` (case sensitivity). -/
theorem filter_matches_at_start_only (results : List LcRecord) (pat : String)
    (r : Regex) (hc : reCompile pat = .ok r) (ht : strTruthy (some pat) = true) :
    (filterStep (some pat) results =
      .ok (results.filter fun result => reMatch r result.name)) ∧
    (∀ rec, rec ∈ results.filter (fun result => reMatch r result.name) ↔
      rec ∈ results ∧ reMatch r rec.name = true) ∧
    filterStep none results = .ok results ∧
    reMatch (.chr 'a') "ab" = true ∧
    reFullmatch (.chr 'a') "ab" = false ∧
    reMatch (.chr 'a') "ba" = false ∧
    reSearch (.chr 'a') "ba" = true ∧
    reMatch (.chr 'a') "Ab" = false := by
  refine ⟨?_, ?_, rfl, by decide, by decide, by decide, by decide, by decide⟩
  · unfold filterStep
    rw [if_pos ht]
    dsimp only [Option.getD]
    rw [hc]
  · intro rec
    simp [List.mem_filter]

/-- Witness for `filter_matches_at_start_only`: Scenario B, where the
pattern `lc-a` keeps the record named `lc-a` and drops `lc-b`. -/
theorem filter_matches_at_start_only_witness :
    filterStep (some "lc-a") [(⟨"lc-a", "arn:a"⟩ : LcRecord), ⟨"lc-b", "arn:b"⟩] =
      .ok [⟨"lc-a", "arn:a"⟩] := by
  have h := filter_matches_at_start_only
    [(⟨"lc-a", "arn:a"⟩ : LcRecord), ⟨"lc-b", "arn:b"⟩] "lc-a"
    (.cat (.chr 'l') (.cat (.chr 'c') (.cat (.chr '-') (.cat (.chr 'a') .eps))))
    (by decide) (by decide)
  rw [h.1]
  decide

/-- C4: whenever `sort` is true, the emitted record names are ordered by
lexicographic string comparison — non-decreasing for ascending (the default,
i.e. any `sort_order` other than `descending`, which the argument spec
restricts to `ascending`), non-increasing for descending; when `sort` is
false, the emitted list is exactly the pre-sort list, untouched by slicing,
so records retain fetch order. -/
theorem sorted_output_order (p : LcParams) (fetched : Except PyError Json)
    (results : List LcRecord) (h : lcFindMain p fetched = .exitJson results) :
    (p.sort = true → ¬ p.sort_order = "descending" →
      (results.map LcRecord.name).Pairwise pyStrLe) ∧
    (p.sort = true → p.sort_order = "descending" →
      (results.map LcRecord.name).Pairwise fun a b => pyStrLe b a) ∧
    (p.sort = false → preSlice p fetched = .ok results) := by
  obtain ⟨pre, hpre, hslice⟩ := lcFindMain_exitJson p fetched results h
  obtain ⟨mid, hmid⟩ := preSlice_ok_sortStep p fetched pre hpre
  obtain ⟨a, b, hab⟩ := sliceBody_ok_shape p.sort p.sort_start p.sort_end pre results hslice
  have hsub : results.Sublist pre := by
    rw [hab]; exact pySlice_sublist pre a b
  refine ⟨?_, ?_, ?_⟩
  · intro hs ho
    have hsorted : pre.Pairwise nameAsc := by
      rw [hmid, hs]
      exact sortStep_sorted_asc p.sort_order ho mid
    exact List.pairwise_map.mpr (List.Pairwise.sublist hsub hsorted)
  · intro hs ho
    have hsorted : pre.Pairwise nameDesc := by
      rw [hmid, hs, ho]
      exact sortStep_sorted_desc mid
    exact List.pairwise_map.mpr (List.Pairwise.sublist hsub hsorted)
  · intro hs
    rw [hs, sliceBody_no_sort] at hslice
    injection hslice with h'
    rw [← h']
    exact hpre

/-- Witness for `sorted_output_order`: Scenario C ascending — fetch order
`c, a, b`, sorted output `a, b, c`, whose names are non-decreasing. -/
theorem sorted_output_order_witness :
    (([⟨"a", "ra"⟩, ⟨"b", "rb"⟩, ⟨"c", "rc"⟩] : List LcRecord).map
      LcRecord.name).Pairwise pyStrLe := by
  have h := sorted_output_order ⟨none, true, "ascending", none, none⟩
    (.ok (mkResponse [("c", "rc"), ("a", "ra"), ("b", "rb")]))
    [⟨"a", "ra"⟩, ⟨"b", "rb"⟩, ⟨"c", "rc"⟩] (by decide)
  exact h.1 rfl (by decide)

/-- C5 (counterexample): with integer bounds `-1` and `2` over the sorted
sequence `a, b, c`, the claim's clamped half-open range `[start, end)` (with
`-1` clamping into the sequence) would keep the first two records, but
Python slicing interprets `-1` as an offset from the end, so the program
emits the empty list: the claim's reading of out-of-range bounds fails on
negative integers. -/
theorem negative_start_not_clamped :
    lcFindMain ⟨none, true, "ascending", some "-1", some "2"⟩
        (.ok (mkResponse [("a", "ra"), ("b", "rb"), ("c", "rc")])) = .exitJson [] ∧
    specClampSlice [(⟨"a", "ra"⟩ : LcRecord), ⟨"b", "rb"⟩, ⟨"c", "rc"⟩] (-1) 2 =
      [⟨"a", "ra"⟩, ⟨"b", "rb"⟩] ∧
    ((ModuleOutcome.exitJson []) ==
      .exitJson [(⟨"a", "ra"⟩ : LcRecord), ⟨"b", "rb"⟩]) = false :=
  ⟨by decide, by decide, by decide⟩

/-- C5 (amended): when `sort` is true and the provided bounds parse as
integers, the slice applies Python slice semantics to the sorted sequence:
non-negative bounds give the half-open range `[start, end)` with
out-of-range bounds clamped (a missing start meaning `0`, a missing end
meaning the sequence length, exactly as the code's one-sided slices do),
while a negative bound counts from the end of the sequence — `length +
bound`, clamped below at zero — rather than clamping to the range directly.
The last conjunct is Scenario D run through the pipeline: fetch order
`c, a, b` sorted to `a, b, c`, then `sort_start="1"`, `sort_end="2"` yields
exactly the record named `b`. -/
theorem slice_range_semantics (xs : List LcRecord) (a b : Int) :
    (0 ≤ a → 0 ≤ b → pySlice xs a b = specClampSlice xs a b) ∧
    (0 ≤ a → pySlice xs a xs.length = specClampSlice xs a xs.length) ∧
    (0 ≤ b → pySlice xs 0 b = specClampSlice xs 0 b) ∧
    (a < 0 → pySlice xs a b = pySlice xs (max ((xs.length : Int) + a) 0) b) ∧
    lcFindMain ⟨none, true, "ascending", some "1", some "2"⟩
        (.ok (mkResponse [("c", "rc"), ("a", "ra"), ("b", "rb")])) =
      .exitJson [⟨"b", "rb"⟩] := by
  have hgen : ∀ u v : Int, 0 ≤ u → 0 ≤ v → pySlice xs u v = specClampSlice xs u v := by
    intro u v hu hv
    unfold pySlice specClampSlice pySliceIndex
    rw [if_neg (not_lt.mpr hu), if_neg (not_lt.mpr hv), max_eq_left hu, max_eq_left hv]
  refine ⟨hgen a b, fun ha => hgen a xs.length ha (Int.natCast_nonneg _),
    fun hb => hgen 0 b le_rfl hb, ?_, by decide⟩
  intro ha
  unfold pySlice pySliceIndex
  have h0 : ¬ (max ((xs.length : Int) + a) 0 < 0) := not_lt.mpr (le_max_right _ _)
  rw [if_pos ha, if_neg h0]
  congr 1
  omega

/-- Witness for `slice_range_semantics`: the Python slice `[1:2]` over three
records equals the clamped half-open range `[1, 2)`. -/
theorem slice_range_semantics_witness :
    pySlice [(⟨"a", "ra"⟩ : LcRecord), ⟨"b", "rb"⟩, ⟨"c", "rc"⟩] 1 2 =
      specClampSlice [(⟨"a", "ra"⟩ : LcRecord), ⟨"b", "rb"⟩, ⟨"c", "rc"⟩] 1 2 :=
  (slice_range_semantics [⟨"a", "ra"⟩, ⟨"b", "rb"⟩, ⟨"c", "rc"⟩] 1 2).1
    (by decide) (by decide)

/-- C7: on every successful run over a well-formed response, the output is a
filtered subset of the projected fetched records and a contiguous Python
slice of the sorted (or fetch-ordered, when `sort` is false) filtered list;
consequently the output is never longer than the fetched record list. -/
theorem output_within_fetched (p : LcParams) (lcs : List Json)
    (recs results : List LcRecord)
    (hex : extractAll lcs = .ok recs)
    (hrun : lcFindMain p (.ok (Json.obj [("LaunchConfigurations", Json.arr lcs)])) =
      .exitJson results) :
    results.length ≤ lcs.length ∧
    (∀ rec, rec ∈ results → rec ∈ recs) ∧
    ∃ mid a b, filterStep p.name_regex recs = .ok mid ∧
      mid.Sublist recs ∧
      results = pySlice (sortStep p.sort p.sort_order mid) a b := by
  obtain ⟨pre, hpre, hslice⟩ := lcFindMain_exitJson _ _ _ hrun
  rw [preSlice_response, hex] at hpre
  dsimp only at hpre
  cases hf : filterStep p.name_regex recs with
  | error e => rw [hf] at hpre; simp at hpre
  | ok mid =>
    rw [hf] at hpre
    dsimp only at hpre
    injection hpre with h'
    obtain ⟨a, b, hab⟩ := sliceBody_ok_shape _ _ _ _ _ hslice
    have hperm := sortStep_perm p.sort p.sort_order mid
    have hsub : results.Sublist pre := by
      rw [hab]; exact pySlice_sublist pre a b
    have hmidsub := filterStep_sublist p.name_regex recs mid hf
    refine ⟨?_, ?_, mid, a, b, rfl, hmidsub, ?_⟩
    · calc results.length ≤ pre.length := hsub.length_le
        _ = mid.length := by rw [← h']; exact hperm.length_eq
        _ ≤ recs.length := hmidsub.length_le
        _ = lcs.length := extractAll_length lcs recs hex
    · intro rec hr
      have h1 : rec ∈ pre := hsub.subset hr
      have h2 : rec ∈ mid := by
        rw [← h'] at h1
        exact hperm.mem_iff.mp h1
      exact hmidsub.subset h2
    · rw [hab, h']

/-- Witness for `output_within_fetched`: a one-record response with no
filters passes through complete and unsliced. -/
theorem output_within_fetched_witness :
    ([(⟨"lc-a", "arn:a"⟩ : LcRecord)]).length ≤ [mkLcEntry "lc-a" "arn:a"].length ∧
    (∀ rec, rec ∈ [(⟨"lc-a", "arn:a"⟩ : LcRecord)] →
      rec ∈ [(⟨"lc-a", "arn:a"⟩ : LcRecord)]) ∧
    ∃ mid a b, filterStep none [(⟨"lc-a", "arn:a"⟩ : LcRecord)] = .ok mid ∧
      mid.Sublist [(⟨"lc-a", "arn:a"⟩ : LcRecord)] ∧
      [(⟨"lc-a", "arn:a"⟩ : LcRecord)] = pySlice (sortStep false "ascending" mid) a b :=
  output_within_fetched ⟨none, false, "ascending", none, none⟩
    [mkLcEntry "lc-a" "arn:a"] [⟨"lc-a", "arn:a"⟩] [⟨"lc-a", "arn:a"⟩]
    (by decide) (by decide)

/-- C8: with `name_regex` omitted, the pre-sort and pre-slice record list is
the projection of every fetched entry — the filter drops nothing, so the
counts agree; and (Scenario A) a run with no filters and no sort emits every
fetched record, in fetch order. -/
theorem no_regex_no_drop (recs : List LcRecord) (entries : List (String × String)) :
    filterStep none recs = .ok recs ∧
    lcFindMain ⟨none, false, "ascending", none, none⟩ (.ok (mkResponse entries)) =
      .exitJson (entries.map mkRecord) ∧
    (entries.map mkRecord).length = entries.length := by
  have hpre : preSlice ⟨none, false, "ascending", none, none⟩ (.ok (mkResponse entries)) =
      .ok (entries.map mkRecord) := by
    rw [show mkResponse entries = Json.obj [("LaunchConfigurations",
      Json.arr (entries.map fun e => mkLcEntry e.1 e.2))] from rfl]
    rw [preSlice_response, extractAll_mkEntries]
    rfl
  refine ⟨rfl, ?_, by simp⟩
  unfold lcFindMain
  rw [hpre]
  rfl

/-- C10: every emitted record is the projection of a fetched entry to
exactly the two fields the loop reads — `name` from
`LaunchConfigurationName` and `arn` from `LaunchConfigurationARN` — with
every other field dropped; an entry lacking either key raises `KeyError`
(the ARN key is read first), which aborts the whole run rather than
skipping the record, as the final pipeline-level conjunct shows. -/
theorem record_projection_exact (name arn : String) (extra : List (String × Json)) :
    extractRecord (Json.obj (("LaunchConfigurationARN", .str arn) ::
      ("LaunchConfigurationName", .str name) :: extra)) = .ok ⟨name, arn⟩ ∧
    extractRecord (Json.obj []) = .error (.keyError "LaunchConfigurationARN") ∧
    extractRecord (Json.obj [("LaunchConfigurationName", .str name)]) =
      .error (.keyError "LaunchConfigurationARN") ∧
    extractRecord (Json.obj [("LaunchConfigurationARN", .str arn)]) =
      .error (.keyError "LaunchConfigurationName") ∧
    lcFindMain ⟨none, false, "ascending", none, none⟩
        (.ok (Json.obj [("LaunchConfigurations",
          .arr [mkLcEntry "lc-good" "arn:good", Json.obj []])])) =
      .uncaught (.keyError "LaunchConfigurationARN") :=
  ⟨rfl, rfl, rfl, rfl, by decide⟩
